import Mathlib

/-!
Verification of the input-dispatch core of Kakoune (`src/input_handler.hh`).

The repository snapshot contains only the header `input_handler.hh`
(declarations of `InputHandler`, its mode-stack, macro-recorder and
insertion-repeat state, and the prompt/on-next-key interfaces).  The
implementation file `input_handler.cc` is not part of the snapshot, so the
behaviour of the operations is modelled from the specification document
(sections 3, 4, 5, 7, 8 of the spec), faithful to its words.  Declarations
that do appear in the header (enum variants, the `Insertion` record with its
default initialiser, the default argument of `handle_key`, the private
helpers `push_mode` / `pop_mode` / `record_key`) are embedded directly from
that source.
-/

namespace Kakoune

/-- Modelled from the spec: `Key` is an "opaque keystroke value;
equality-comparable; distinguishes literal vs. control/function keys"
(spec section 3).  `keys.hh` is not in the snapshot, so we model a literal
character constructor plus the two control keys the spec's scenarios use
(Escape and Enter/Return) and an opaque constructor for the rest. -/
inductive Key where
  | char (c : Char)
  | escape
  | enter
  | other (n : Nat)
deriving DecidableEq, Repr

/-- From `input_handler.hh` lines 46-55: `enum class InsertMode`. -/
inductive InsertMode where
  | Insert
  | Append
  | Replace
  | InsertAtLineBegin
  | AppendAtLineEnd
  | OpenLineBelow
  | OpenLineAbove
deriving DecidableEq, Repr

/-- From `input_handler.hh` lines 22-27: `enum class PromptEvent`. -/
inductive PromptEvent where
  | Change
  | Abort
  | Validate
deriving DecidableEq, Repr

/-- Modelled from the spec: `KeymapMode` is declared in the header
(`enum class KeymapMode : char`) but defined in `keymap_manager.hh`, which
is not in the snapshot; it is only carried as opaque data by the one-shot
key mode. -/
inductive KeymapMode where
  | normal
  | insert
  | prompt
  | goto
  | view
  | user
  | object
deriving DecidableEq, Repr

/-- Modelled from the spec: `NormalParams` comes from `normal.hh` (not in
the snapshot); the spec calls them the "explicit repeat parameters" of the
force-normal overlay (spec section 4.7), a count and a register. -/
structure NormalParams where
  count : Nat
  reg : Char
deriving DecidableEq, Repr

/-- Modelled from the spec, section 3 and design note section 9: the
polymorphic `InputMode` hierarchy as a "tagged variant over
{Normal, Insert, Prompt, OnNextKey, ForceNormal}".  Each variant owns only
the data needed to interpret keys: Insert holds flavor + count; Prompt holds
label, current text, face, flags and history register; OnNextKey holds the
mode name and keymap-mode; ForceNormal holds the explicit repeat
parameters. -/
inductive InputMode where
  | normal
  | insert (mode : InsertMode) (count : Nat)
  | prompt (label : String) (content : String) (face : Nat) (flags : Nat)
      (historyRegister : Char)
  | onNextKey (modeName : String) (keymapMode : KeymapMode)
  | forceNormal (params : NormalParams)
deriving DecidableEq, Repr

/-- Observable effects emitted towards external collaborators: prompt
callback invocations (spec section 4.4), the one-shot key callback (spec
section 4.5) and the buffer-insertion effect of a key consumed by Insert
mode, tagged with whether the key was synthesized and whether hooks were
disabled when it was processed (spec sections 4.1, 4.2). -/
inductive Event where
  | promptCb (text : String) (ev : PromptEvent)
  | keyCb (modeName : String) (k : Key)
  | insertedKey (k : Key) (synthesized : Bool) (hooksDisabled : Bool)
deriving DecidableEq, Repr

/-- From `input_handler.hh` lines 137-143: `struct Insertion`.  The
`NestedBool recording` field is modelled as a nesting counter (set when
nonzero); per spec section 3 it is the "recording-suppressed flag" of the
insertion record: while set, keys are not appended to the record (spec
section 4.2: replay runs "with recording suppressed (so replay does not
corrupt the stored record)"). -/
structure Insertion where
  recording : Nat
  mode : InsertMode
  keys : List Key
  disable_hooks : Bool
  count : Nat
deriving DecidableEq, Repr

/-- The null register character: `m_recording_reg = 0` in the header means
no recording is active. -/
def regNone : Char := Char.ofNat 0

/-- State of an `InputHandler`, from the private section of
`input_handler.hh` (lines 123-149) plus the externally owned pieces the
spec's contracts mention: the hook-disable nesting counter of the context
(`context().hooks_disabled()`, a `NestedBool`), the register storage
("external storage" committed to by `stop_recording`, spec section 4.3,
newest entry first), and the emitted-event log. -/
structure InputHandler where
  /-- `m_mode_stack`, top of the stack at the head of the list. -/
  m_mode_stack : List InputMode
  /-- `m_last_insert`. -/
  m_last_insert : Insertion
  /-- `m_handle_key_level`: the re-entrancy depth, "count of nested,
  in-progress dispatch calls at a given moment" (spec glossary). -/
  m_handle_key_level : Nat
  /-- `m_recording_reg` (0 = not recording). -/
  m_recording_reg : Char
  /-- `m_recorded_keys`. -/
  m_recorded_keys : List Key
  /-- `m_recording_level` (initially -1). -/
  m_recording_level : Int
  /-- The context's hook-disable `NestedBool`, modelled as a counter. -/
  hooks_disabled : Nat
  /-- External register storage, newest binding first. -/
  registers : List (Char × List Key)
  /-- Log of observable callback/buffer effects, in chronological order. -/
  events : List Event
deriving Repr

namespace InputHandler

/-- Modelled from the spec, section 3 lifecycle: "the stack starts with
exactly one Normal instance"; the other fields take the header's default
member initialisers (`m_last_insert = { {}, InsertMode::Insert, {}, false, 1 }`,
`m_handle_key_level = 0`, `m_recording_reg = 0`, `m_recording_level = -1`). -/
def init : InputHandler where
  m_mode_stack := [InputMode.normal]
  m_last_insert := { recording := 0, mode := InsertMode.Insert, keys := [],
                     disable_hooks := false, count := 1 }
  m_handle_key_level := 0
  m_recording_reg := regNone
  m_recorded_keys := []
  m_recording_level := -1
  hooks_disabled := 0
  registers := []
  events := []

/-- Modelled from the spec, section 4.1: `push(mode)` "appends a mode on
top; it becomes exclusive receiver of subsequent keys" (header private
member `push_mode`). -/
def push_mode (s : InputHandler) (m : InputMode) : InputHandler :=
  { s with m_mode_stack := m :: s.m_mode_stack }

/-- Modelled from the spec, sections 4.1 and 7: `pop(expected)` "removes
the top only if it equals `expected`"; a mismatch "is a fatal protocol
violation", i.e. the asserted branch, modelled as `none` (header private
member `pop_mode`). -/
def pop_mode (s : InputHandler) (expected : InputMode) : Option InputHandler :=
  match s.m_mode_stack with
  | [] => none
  | top :: rest => if top = expected then some { s with m_mode_stack := rest } else none

/-- From the header: `bool is_recording() const;` true when
`m_recording_reg` holds a register. -/
def is_recording (s : InputHandler) : Bool :=
  s.m_recording_reg ≠ regNone

/-- Modelled from the spec, sections 4.3 and 7: `start_recording(register)`
is "a no-operation reported to the caller if already recording; otherwise
begins capturing subsequent keys tagged with `register` at the current
re-entrancy depth".  The returned Bool is the report (true = recording
began). -/
def start_recording (s : InputHandler) (reg : Char) : InputHandler × Bool :=
  if s.m_recording_reg ≠ regNone then (s, false)
  else ({ s with m_recording_reg := reg,
                 m_recorded_keys := [],
                 m_recording_level := (s.m_handle_key_level : Int) }, true)

/-- Modelled from the spec, section 4.3: `stop_recording()` "ends capture,
commits the sequence to the named register (external storage), clears
state; a no-operation if not recording". -/
def stop_recording (s : InputHandler) : InputHandler :=
  if s.m_recording_reg = regNone then s
  else { s with registers := (s.m_recording_reg, s.m_recorded_keys) :: s.registers,
                m_recording_reg := regNone,
                m_recorded_keys := [],
                m_recording_level := -1 }

/-- Register storage lookup (newest binding wins). -/
def get_register (s : InputHandler) (reg : Char) : Option (List Key) :=
  (s.registers.find? (fun p => p.1 = reg)).map Prod.snd

/-- Modelled from the spec, section 3: "A key is appended only if recording
is active and the current re-entrancy depth equals the recording-start
depth — this excludes synthetic keys from nested replays" (header private
member `record_key`).  Per the spec glossary the depth of a key is the
number of in-progress dispatch calls at the moment the key is submitted,
i.e. `m_handle_key_level` before `handle_key` increments it. -/
def record_key (s : InputHandler) (k : Key) : InputHandler :=
  if s.m_recording_reg ≠ regNone ∧ s.m_recording_level = (s.m_handle_key_level : Int)
  then { s with m_recorded_keys := s.m_recorded_keys ++ [k] }
  else s

/-- Modelled from the spec, section 4.3: `drop_last_recorded_key()`
"removes the most recently captured key". -/
def drop_last_recorded_key (s : InputHandler) : InputHandler :=
  { s with m_recorded_keys := s.m_recorded_keys.dropLast }

/-- Modelled from the spec, section 4.2: `insert(mode, count)` "pushes an
Insert instance ... with a repetition count; starts a fresh insertion
record".  The fresh record captures the flavor, the count and whether hooks
are currently disabled; it is not started while the record's
recording-suppressed flag is set, since replay "does not corrupt the stored
record" (spec section 4.2). -/
def insert (s : InputHandler) (mode : InsertMode) (count : Nat) : InputHandler :=
  let s := s.push_mode (InputMode.insert mode count)
  if s.m_last_insert.recording = 0 then
    { s with m_last_insert := { recording := s.m_last_insert.recording,
                                mode := mode, keys := [],
                                disable_hooks := s.hooks_disabled ≠ 0,
                                count := count } }
  else s

/-- Modelled from the spec, section 4.4: `prompt(...)` "pushes a Prompt
mode owning an editable text buffer seeded from `initial`".  The
`emptystr` placeholder is display-only and the completer and callback are
external functions: callback invocations are modelled as emitted
`Event.promptCb` values. -/
def prompt (s : InputHandler) (label : String) (initstr : String)
    (_emptystr : String) (face : Nat) (flags : Nat) (history_register : Char) :
    InputHandler :=
  s.push_mode (InputMode.prompt label initstr face flags history_register)

/-- Modelled from the spec, section 4.5: `on_next_key(mode_name,
keymap_mode, callback, idle_callback)` "pushes a transient mode forwarding
exactly one key to `callback`, then pops itself".  The callback is
external; its invocation is modelled as an emitted `Event.keyCb`; the idle
callback runs on an external scheduler, a "side channel independent of the
dispatch guarantee", and is not modelled. -/
def on_next_key (s : InputHandler) (mode_name : String) (mode : KeymapMode) :
    InputHandler :=
  s.push_mode (InputMode.onNextKey mode_name mode)

/-- Modelled from the spec, sections 4.1-4.5: the current top mode's key
logic, one match at the stack top (design note section 9).
Normal (and the ForceNormal overlay, which interprets keys as Normal does)
consumes the key; its command execution is an external collaborator.
Insert: Escape ends the session, popping the mode and leaving the record
frozen as "last insert"; any other key is a buffer edit, appended to the
insertion record unless recording is suppressed (spec section 4.2).
Prompt: a literal character edits the text and fires the callback with
Change on the new text; Enter fires Validate on the final text then pops;
Escape fires Abort then pops (spec section 4.4).
OnNextKey: forwards the one key to the callback and pops itself (spec
section 4.5). -/
def dispatch_to_mode (s : InputHandler) (k : Key) (synthesized : Bool) :
    InputHandler :=
  match s.m_mode_stack with
  | InputMode.insert _ _ :: rest =>
    if k = Key.escape then { s with m_mode_stack := rest }
    else if s.m_last_insert.recording = 0 then
      { s with
        events := s.events ++ [Event.insertedKey k synthesized (s.hooks_disabled ≠ 0)],
        m_last_insert := { s.m_last_insert with keys := s.m_last_insert.keys ++ [k] } }
    else
      { s with
        events := s.events ++ [Event.insertedKey k synthesized (s.hooks_disabled ≠ 0)] }
  | InputMode.prompt label content face flags hreg :: rest =>
    match k with
    | Key.char c =>
      let text := content.push c
      { s with m_mode_stack := InputMode.prompt label text face flags hreg :: rest,
               events := s.events ++ [Event.promptCb text PromptEvent.Change] }
    | Key.enter =>
      { s with m_mode_stack := rest,
               events := s.events ++ [Event.promptCb content PromptEvent.Validate] }
    | Key.escape =>
      { s with m_mode_stack := rest,
               events := s.events ++ [Event.promptCb content PromptEvent.Abort] }
    | _ => s
  | InputMode.onNextKey name _ :: rest =>
    { s with m_mode_stack := rest, events := s.events ++ [Event.keyCb name k] }
  | _ => s

/-- First phase of `handle_key` (spec section 4.1): record the key if the
macro recorder should capture it at this depth, then increment the
re-entrancy depth counter. -/
def handle_key_begin (s : InputHandler) (k : Key) : InputHandler :=
  let s := s.record_key k
  { s with m_handle_key_level := s.m_handle_key_level + 1 }

/-- Last phase of `handle_key`: "decrements depth on every exit path"
(spec section 4.1). -/
def handle_key_finish (s : InputHandler) : InputHandler :=
  { s with m_handle_key_level := s.m_handle_key_level - 1 }

/-- Modelled from the spec, section 4.1: `handle_key(key, synthesized)`
"increments re-entrancy depth, forwards the key to the current top mode's
logic, decrements depth on every exit path".  This is the plain dispatch in
which the mode logic enqueues no further synthetic keys; re-entrant
dispatch is modelled by `Kakoune.applyOp`. -/
def handle_key (s : InputHandler) (k : Key) (synthesized : Bool) : InputHandler :=
  handle_key_finish (dispatch_to_mode (s.handle_key_begin k) k synthesized)

/-- From `input_handler.hh` line 94: the declared default of the
`synthesized` parameter of `handle_key` is `true`
(`void handle_key(Key key, bool synthesized = true);`). -/
def handle_key_synthesized_default : Bool := true

/-- `handle_key` as invoked with the `synthesized` argument omitted: the
header's default argument value is supplied. -/
def handle_key_defaulted (s : InputHandler) (k : Key) : InputHandler :=
  s.handle_key k handle_key_synthesized_default

/-- Modelled from the spec, section 4.1: `reset_normal_mode()`
"unconditionally pops every mode above the bottom Normal, for abrupt global
cancellation". -/
def reset_normal_mode (s : InputHandler) : InputHandler :=
  { s with m_mode_stack :=
      match s.m_mode_stack.getLast? with
      | some m => [m]
      | none => [InputMode.normal] }

/-- Modelled from the spec, section 4.7: acquisition of a
`ScopedForceNormal` guard "pushes a Normal overlay with explicit repeat
parameters" (the constructor `ScopedForceNormal(InputHandler&,
NormalParams)` of the header). -/
def force_normal_begin (s : InputHandler) (params : NormalParams) : InputHandler :=
  s.push_mode (InputMode.forceNormal params)

/-- Modelled from the spec, section 4.7: release of a `ScopedForceNormal`
guard "pops exactly that overlay, restoring the prior top" (the destructor
of the header's `ScopedForceNormal`); popping a non-top overlay would be an
unbalanced guard, a protocol violation (spec section 7), modelled as
leaving the state unchanged. -/
def force_normal_end (s : InputHandler) (params : NormalParams) : InputHandler :=
  match s.m_mode_stack with
  | InputMode.forceNormal q :: rest =>
    if q = params then { s with m_mode_stack := rest } else s
  | _ => s

/-- Replay a key sequence through the dispatch pipeline, each key
synthesized (spec section 4.2). -/
def replay_keys (s : InputHandler) (keys : List Key) : InputHandler :=
  keys.foldl (fun st k => st.handle_key k true) s

/-- Scope entry for a replay (spec section 4.2): set the context's
hook-disable toggle when the frozen record had hooks disabled, and set the
insertion record's recording-suppressed toggle; both are scoped
(`ScopedSetBool` nesting counters). -/
def replay_scope_enter (s : InputHandler) : InputHandler :=
  if s.m_last_insert.disable_hooks then
    { s with hooks_disabled := s.hooks_disabled + 1,
             m_last_insert :=
               { s.m_last_insert with recording := s.m_last_insert.recording + 1 } }
  else
    { s with m_last_insert :=
        { s.m_last_insert with recording := s.m_last_insert.recording + 1 } }

/-- Scope exit for a replay: restore both toggles. -/
def replay_scope_exit (disable_hooks : Bool) (s : InputHandler) : InputHandler :=
  if disable_hooks then
    { s with hooks_disabled := s.hooks_disabled - 1,
             m_last_insert :=
               { s.m_last_insert with recording := s.m_last_insert.recording - 1 } }
  else
    { s with m_last_insert :=
        { s.m_last_insert with recording := s.m_last_insert.recording - 1 } }

/-- Modelled from the spec, section 4.2: `repeat_last_insert()` "re-enters
Insert with the frozen flavor/count, replays the frozen keys as synthesized
with recording suppressed (so replay does not corrupt the stored record)
and hooks disabled if the original had them disabled; returns to Normal
exactly as a normal session would" — the replayed session is terminated by
a synthesized Escape, as a live session would be.  The hook-disable and
record-suppression toggles are scoped, restored when the replay ends. -/
def repeat_last_insert (s : InputHandler) : InputHandler :=
  replay_scope_exit s.m_last_insert.disable_hooks
    ((((s.replay_scope_enter).insert s.m_last_insert.mode
        s.m_last_insert.count).replay_keys s.m_last_insert.keys).handle_key
      Key.escape true)

end InputHandler

/-- Modelled from the spec, sections 4.1 and 5: the operations a client or
a re-entrant collaborator may perform on the handler.  `handleKey` carries
the list of operations the current dispatch frame performs before
returning — "a mode handler may recursively push/pop, mutate buffer state
via the external context, or dispatch further synthetic keys before
returning" (spec section 4.1) — which models recursive `handle_key`
dispatch at a deeper re-entrancy level. -/
inductive Op where
  | insert (mode : InsertMode) (count : Nat)
  | prompt (label initstr emptystr : String) (face : Nat) (flags : Nat)
      (historyRegister : Char)
  | onNextKey (modeName : String) (keymapMode : KeymapMode)
  | handleKey (k : Key) (synthesized : Bool) (nested : List Op)
  | startRecording (reg : Char)
  | stopRecording
  | resetNormalMode
  | repeatLastInsert
  | forceNormalBegin (params : NormalParams)
  | forceNormalEnd (params : NormalParams)

mutual

/-- Semantics of one operation.  For `handleKey` the nested operations run
between the increment and the decrement of the re-entrancy depth counter,
i.e. inside the dispatch frame of the key. -/
def applyOp (s : InputHandler) : Op → InputHandler
  | Op.insert m c => s.insert m c
  | Op.prompt label initstr emptystr face flags hreg =>
      s.prompt label initstr emptystr face flags hreg
  | Op.onNextKey name km => s.on_next_key name km
  | Op.handleKey k synthesized nested =>
      InputHandler.handle_key_finish
        (applyOps (InputHandler.dispatch_to_mode (s.handle_key_begin k) k synthesized)
          nested)
  | Op.startRecording reg => (s.start_recording reg).1
  | Op.stopRecording => s.stop_recording
  | Op.resetNormalMode => s.reset_normal_mode
  | Op.repeatLastInsert => s.repeat_last_insert
  | Op.forceNormalBegin p => s.force_normal_begin p
  | Op.forceNormalEnd p => s.force_normal_end p

/-- Run a list of operations in order. -/
def applyOps (s : InputHandler) : List Op → InputHandler
  | [] => s
  | op :: rest => applyOps (applyOp s op) rest

end

/-- One evolution step of the handler: some operation is applied. -/
inductive Step : InputHandler → InputHandler → Prop where
  | op (s : InputHandler) (o : Op) : Step s (applyOp s o)

/-- States reachable from construction through any sequence of operations,
including recursive dispatch (spec section 3 lifecycle). -/
def Reachable (s : InputHandler) : Prop :=
  Relation.ReflTransGen Step InputHandler.init s

/-- A dispatch of a key with no nested operations is exactly
`InputHandler.handle_key`. -/
theorem applyOp_handleKey_nil (s : InputHandler) (k : Key) (b : Bool) :
    applyOp s (Op.handleKey k b []) = s.handle_key k b := by
  simp [applyOp, applyOps, InputHandler.handle_key]

/-- The mode-stack invariant of spec sections 3 and 8: "never empty;
bottom is always Normal". -/
def BottomNormal (s : InputHandler) : Prop :=
  s.m_mode_stack ≠ [] ∧ s.m_mode_stack.getLast? = some InputMode.normal

theorem getLast?_cons_of_ne_nil {α : Type} (a : α) {l : List α} (h : l ≠ []) :
    (a :: l).getLast? = l.getLast? := by
  cases l with
  | nil => exact absurd rfl h
  | cons b t => exact List.getLast?_cons_cons

/-- Any state transformation that leaves the mode stack untouched
preserves the invariant. -/
theorem BottomNormal.of_eq_stack {s t : InputHandler} (h : BottomNormal s)
    (he : t.m_mode_stack = s.m_mode_stack) : BottomNormal t :=
  ⟨by rw [he]; exact h.1, by rw [he]; exact h.2⟩

theorem BottomNormal.push (s : InputHandler) (m : InputMode) (h : BottomNormal s) :
    BottomNormal (s.push_mode m) := by
  obtain ⟨hne, hlast⟩ := h
  refine ⟨by simp [InputHandler.push_mode], ?_⟩
  simp only [InputHandler.push_mode]
  rw [getLast?_cons_of_ne_nil _ hne]
  exact hlast

/-- Popping a non-Normal top of a stack whose bottom is Normal leaves a
nonempty stack whose bottom is still Normal. -/
theorem BottomNormal.pop_top (s : InputHandler) (m : InputMode)
    (rest : List InputMode) (h : BottomNormal s) (heq : s.m_mode_stack = m :: rest)
    (hm : m ≠ InputMode.normal) :
    rest ≠ [] ∧ rest.getLast? = some InputMode.normal := by
  obtain ⟨-, hlast⟩ := h
  rw [heq] at hlast
  cases rest with
  | nil =>
    simp [List.getLast?] at hlast
    exact absurd hlast hm
  | cons b t =>
    rw [List.getLast?_cons_cons] at hlast
    exact ⟨by simp, hlast⟩

theorem BottomNormal.dispatch (s : InputHandler) (k : Key) (b : Bool)
    (h : BottomNormal s) : BottomNormal (s.dispatch_to_mode k b) := by
  unfold InputHandler.dispatch_to_mode
  split
  · -- insert on top
    rename_i f c rest heq
    split
    · exact ⟨(BottomNormal.pop_top s _ rest h heq (by simp)).1,
             (BottomNormal.pop_top s _ rest h heq (by simp)).2⟩
    · split
      · exact BottomNormal.of_eq_stack h rfl
      · exact BottomNormal.of_eq_stack h rfl
  · -- prompt on top
    rename_i label content face flags hreg rest heq
    match k with
    | Key.char c =>
      have hrest := BottomNormal.pop_top s _ rest h heq (by simp)
      refine ⟨by simp, ?_⟩
      simp only
      rw [getLast?_cons_of_ne_nil _ hrest.1]
      exact hrest.2
    | Key.enter =>
      exact ⟨(BottomNormal.pop_top s _ rest h heq (by simp)).1,
             (BottomNormal.pop_top s _ rest h heq (by simp)).2⟩
    | Key.escape =>
      exact ⟨(BottomNormal.pop_top s _ rest h heq (by simp)).1,
             (BottomNormal.pop_top s _ rest h heq (by simp)).2⟩
    | Key.other n => exact ⟨h.1, h.2⟩
  · -- one-shot key mode on top
    rename_i name km rest heq
    exact ⟨(BottomNormal.pop_top s _ rest h heq (by simp)).1,
           (BottomNormal.pop_top s _ rest h heq (by simp)).2⟩
  · -- Normal, ForceNormal or empty: state unchanged
    exact h

theorem BottomNormal.handle_key (s : InputHandler) (k : Key) (b : Bool)
    (h : BottomNormal s) : BottomNormal (s.handle_key k b) := by
  have h1 : BottomNormal (s.handle_key_begin k) := by
    unfold InputHandler.handle_key_begin InputHandler.record_key
    split <;> exact ⟨h.1, h.2⟩
  exact (BottomNormal.dispatch _ k b h1).imp id id

theorem BottomNormal.insert (s : InputHandler) (m : InsertMode) (c : Nat)
    (h : BottomNormal s) : BottomNormal (s.insert m c) := by
  have hp := BottomNormal.push s (InputMode.insert m c) h
  unfold InputHandler.insert
  dsimp only
  split
  · exact BottomNormal.of_eq_stack hp rfl
  · exact hp

theorem BottomNormal.replay_keys (keys : List Key) :
    ∀ s : InputHandler, BottomNormal s → BottomNormal (s.replay_keys keys) := by
  unfold InputHandler.replay_keys
  induction keys with
  | nil => intro s h; exact h
  | cons k ks ih =>
    intro s h
    exact ih _ (BottomNormal.handle_key s k true h)

theorem BottomNormal.scope_enter (s : InputHandler) (h : BottomNormal s) :
    BottomNormal (s.replay_scope_enter) := by
  unfold InputHandler.replay_scope_enter
  split
  · exact BottomNormal.of_eq_stack h rfl
  · exact BottomNormal.of_eq_stack h rfl

theorem BottomNormal.scope_exit (b : Bool) (s : InputHandler) (h : BottomNormal s) :
    BottomNormal (InputHandler.replay_scope_exit b s) := by
  unfold InputHandler.replay_scope_exit
  split
  · exact BottomNormal.of_eq_stack h rfl
  · exact BottomNormal.of_eq_stack h rfl

theorem BottomNormal.repeat_last_insert (s : InputHandler) (h : BottomNormal s) :
    BottomNormal (s.repeat_last_insert) :=
  BottomNormal.scope_exit _ _
    (BottomNormal.handle_key _ Key.escape true
      (BottomNormal.replay_keys _ _
        (BottomNormal.insert _ _ _ (BottomNormal.scope_enter s h))))

mutual

theorem BottomNormal.applyOp (s : InputHandler) (o : Op) (h : BottomNormal s) :
    BottomNormal (applyOp s o) :=
  match o with
  | Op.insert m c => BottomNormal.insert s m c h
  | Op.prompt label initstr emptystr face flags hreg =>
    BottomNormal.push s _ h
  | Op.onNextKey name km => BottomNormal.push s _ h
  | Op.handleKey k b nested => by
    unfold Kakoune.applyOp
    have h1 : BottomNormal (s.handle_key_begin k) := by
      unfold InputHandler.handle_key_begin InputHandler.record_key
      split <;> exact ⟨h.1, h.2⟩
    have h2 := BottomNormal.dispatch _ k b h1
    have h3 := BottomNormal.applyOps _ nested h2
    exact ⟨h3.1, h3.2⟩
  | Op.startRecording reg => by
    unfold Kakoune.applyOp InputHandler.start_recording
    split <;> exact ⟨h.1, h.2⟩
  | Op.stopRecording => by
    unfold Kakoune.applyOp InputHandler.stop_recording
    split <;> exact ⟨h.1, h.2⟩
  | Op.resetNormalMode => by
    unfold Kakoune.applyOp InputHandler.reset_normal_mode
    rw [h.2]
    exact ⟨by simp, by simp⟩
  | Op.repeatLastInsert => BottomNormal.repeat_last_insert s h
  | Op.forceNormalBegin p => BottomNormal.push s _ h
  | Op.forceNormalEnd p => by
    unfold Kakoune.applyOp InputHandler.force_normal_end
    split
    · rename_i q rest heq
      split
      · exact ⟨(BottomNormal.pop_top s _ rest h heq (by simp)).1,
               (BottomNormal.pop_top s _ rest h heq (by simp)).2⟩
      · exact h
    · exact h

theorem BottomNormal.applyOps (s : InputHandler) (l : List Op)
    (h : BottomNormal s) : BottomNormal (applyOps s l) :=
  match l with
  | [] => h
  | op :: rest => BottomNormal.applyOps (Kakoune.applyOp s op) rest
      (BottomNormal.applyOp s op h)

end

/-- C1: for every reachable sequence of mode push/pop operations on an
InputHandler (starting from construction, through insert, prompt,
on_next_key, ScopedForceNormal, reset_normal_mode, and any recursive
handle_key dispatch), the mode stack is never empty and its bottom element
is always the Normal mode. -/
theorem c1_mode_stack_never_empty_bottom_normal (s : InputHandler)
    (h : Reachable s) :
    s.m_mode_stack ≠ [] ∧ s.m_mode_stack.getLast? = some InputMode.normal := by
  induction h with
  | refl => exact ⟨by simp [InputHandler.init], by simp [InputHandler.init]⟩
  | tail _ step ih =>
    cases step with
    | op o => exact BottomNormal.applyOp _ o ih

/-- Witness for C1: the invariant holds at the freshly constructed
handler. -/
theorem c1_witness :
    InputHandler.init.m_mode_stack ≠ [] ∧
    InputHandler.init.m_mode_stack.getLast? = some InputMode.normal :=
  c1_mode_stack_never_empty_bottom_normal InputHandler.init
    Relation.ReflTransGen.refl

/-- C7: for every state of the mode stack, pop(expected) removes the top
mode when it equals expected; when expected is not the current top, the
operation takes the fatal/asserted protocol-violation branch (modelled as
`none`), never a silent no-op or a tolerant search-and-remove. -/
theorem c7_pop_mode_protocol (s : InputHandler) (expected top : InputMode)
    (rest : List InputMode) (heq : s.m_mode_stack = top :: rest) :
    (top = expected →
      s.pop_mode expected = some { s with m_mode_stack := rest }) ∧
    (top ≠ expected → s.pop_mode expected = none) := by
  constructor
  · intro h
    simp [InputHandler.pop_mode, heq, h]
  · intro h
    simp [InputHandler.pop_mode, heq, h]

/-- Witness for C7: on the initial handler, popping the Normal top
succeeds and popping a non-top mode is the violation branch. -/
theorem c7_witness :
    (InputHandler.init.pop_mode InputMode.normal =
      some { InputHandler.init with m_mode_stack := [] }) ∧
    (InputHandler.init.pop_mode (InputMode.insert InsertMode.Insert 1) = none) :=
  ⟨(c7_pop_mode_protocol InputHandler.init InputMode.normal InputMode.normal []
      rfl).1 rfl,
   (c7_pop_mode_protocol InputHandler.init (InputMode.insert InsertMode.Insert 1)
      InputMode.normal [] rfl).2 (by simp)⟩

/-- C9: start_recording when a recording is already active is a
no-operation reported to the caller (the state — register, captured keys,
recording depth — is unchanged and the report is `false`), and
stop_recording when no recording is active is a no-operation. -/
theorem c9_recording_redundant_noops :
    (∀ (s : InputHandler) (reg : Char),
      s.is_recording = true → s.start_recording reg = (s, false)) ∧
    (∀ s : InputHandler, s.is_recording = false → s.stop_recording = s) := by
  constructor
  · intro s reg h
    simp only [InputHandler.is_recording, ne_eq, decide_not,
      Bool.not_eq_true', decide_eq_false_iff_not] at h
    unfold InputHandler.start_recording
    rw [if_pos h]
  · intro s h
    simp only [InputHandler.is_recording, ne_eq, decide_not,
      Bool.not_eq_false', decide_eq_true_eq] at h
    unfold InputHandler.stop_recording
    rw [if_pos h]

/-- Witness for C9: a handler recording into register q ignores a second
start_recording, and stop_recording on the fresh handler does nothing. -/
theorem c9_witness :
    ({ InputHandler.init with m_recording_reg := 'q' } : InputHandler).start_recording 'a' =
      ({ InputHandler.init with m_recording_reg := 'q' }, false) ∧
    InputHandler.init.stop_recording = InputHandler.init :=
  ⟨c9_recording_redundant_noops.1 _ 'a' (by decide),
   c9_recording_redundant_noops.2 _ (by decide)⟩

/-- C8: acquiring a ScopedForceNormal guard puts the Normal overlay on
top; destruction pops exactly that overlay, restoring the state (and in
particular whatever mode — e.g. an active Insert — was on top before
acquisition); nested guards unwind in strict reverse order of
acquisition. -/
theorem c8_scoped_force_normal (s : InputHandler) (p q : NormalParams) :
    (s.force_normal_begin p).m_mode_stack =
      InputMode.forceNormal p :: s.m_mode_stack ∧
    (s.force_normal_begin p).force_normal_end p = s ∧
    (((s.force_normal_begin p).force_normal_begin q).force_normal_end q).force_normal_end
      p = s := by
  refine ⟨rfl, ?_, ?_⟩
  · simp [InputHandler.force_normal_begin, InputHandler.push_mode,
      InputHandler.force_normal_end]
  · simp [InputHandler.force_normal_begin, InputHandler.push_mode,
      InputHandler.force_normal_end]

/-- C4: after on_next_key, the pushed transient mode forwards exactly one
key to the callback, then pops itself: the handler returns to the mode
stack that was in place before on_next_key (the previous mode on top, not
necessarily Normal), with exactly one key-callback invocation emitted.
(The modelled callback does not itself alter the mode stack.) -/
theorem c4_on_next_key_one_shot (s : InputHandler) (name : String)
    (km : KeymapMode) (k : Key) (b : Bool) :
    ((s.on_next_key name km).handle_key k b).m_mode_stack = s.m_mode_stack ∧
    ((s.on_next_key name km).handle_key k b).events =
      s.events ++ [Event.keyCb name k] := by
  by_cases hc : s.m_recording_reg ≠ regNone ∧
      s.m_recording_level = (s.m_handle_key_level : Int)
  · constructor <;>
      simp [InputHandler.on_next_key, InputHandler.push_mode,
        InputHandler.handle_key, InputHandler.handle_key_begin,
        InputHandler.record_key, InputHandler.handle_key_finish,
        InputHandler.dispatch_to_mode, hc]
  · constructor <;>
      simp [InputHandler.on_next_key, InputHandler.push_mode,
        InputHandler.handle_key, InputHandler.handle_key_begin,
        InputHandler.record_key, InputHandler.handle_key_finish,
        InputHandler.dispatch_to_mode, hc]

/-- C6: starting from Normal mode, insert(Insert, 1) followed by handling
key x and then Escape leaves the mode stack as exactly [Normal], and the
frozen last-insert record equals {flavor Insert, count 1, keys [x]}. -/
theorem c6_insert_session_scenario :
    (((InputHandler.init.insert InsertMode.Insert 1).handle_key (Key.char 'x')
        false).handle_key Key.escape false).m_mode_stack = [InputMode.normal] ∧
    (((InputHandler.init.insert InsertMode.Insert 1).handle_key (Key.char 'x')
        false).handle_key Key.escape false).m_last_insert =
      { recording := 0, mode := InsertMode.Insert, keys := [Key.char 'x'],
        disable_hooks := false, count := 1 } := by
  refine ⟨rfl, rfl⟩

/-- C3: in Prompt mode (entered from Normal), every edit of the prompt
text synchronously invokes the callback with event Change on the new text,
and confirming invokes the callback with event Validate on the final text,
after which the mode stack returns to exactly [Normal].  (The modelled
callback does not itself alter the mode stack.) -/
theorem c3_prompt_callback_events (s : InputHandler) (label content : String)
    (face flags : Nat) (hreg : Char) (c : Char) (b : Bool)
    (heq : s.m_mode_stack =
      [InputMode.prompt label content face flags hreg, InputMode.normal]) :
    ((s.handle_key (Key.char c) b).m_mode_stack =
        [InputMode.prompt label (content.push c) face flags hreg,
         InputMode.normal] ∧
      (s.handle_key (Key.char c) b).events =
        s.events ++ [Event.promptCb (content.push c) PromptEvent.Change]) ∧
    ((s.handle_key Key.enter b).m_mode_stack = [InputMode.normal] ∧
      (s.handle_key Key.enter b).events =
        s.events ++ [Event.promptCb content PromptEvent.Validate]) := by
  by_cases hc : s.m_recording_reg ≠ regNone ∧
      s.m_recording_level = (s.m_handle_key_level : Int)
  · refine ⟨⟨?_, ?_⟩, ?_, ?_⟩ <;>
      simp [InputHandler.handle_key, InputHandler.handle_key_begin,
        InputHandler.record_key, InputHandler.handle_key_finish,
        InputHandler.dispatch_to_mode, heq, hc]
  · refine ⟨⟨?_, ?_⟩, ?_, ?_⟩ <;>
      simp [InputHandler.handle_key, InputHandler.handle_key_begin,
        InputHandler.record_key, InputHandler.handle_key_finish,
        InputHandler.dispatch_to_mode, heq, hc]

/-- Witness for C3, the scenario of spec section 8:
prompt("find:", "", "", face, None, 0, completer, cb); handling a fires
cb("a", Change); handling Enter fires cb("a", Validate); the stack returns
to [Normal]. -/
theorem c3_witness :
    ((InputHandler.init.prompt "find:" "" "" 0 0 regNone).handle_key
        (Key.char 'a') false).events = [Event.promptCb "a" PromptEvent.Change] ∧
    (((InputHandler.init.prompt "find:" "" "" 0 0 regNone).handle_key
        (Key.char 'a') false).handle_key Key.enter false).m_mode_stack =
      [InputMode.normal] ∧
    (((InputHandler.init.prompt "find:" "" "" 0 0 regNone).handle_key
        (Key.char 'a') false).handle_key Key.enter false).events =
      [Event.promptCb "a" PromptEvent.Change,
       Event.promptCb "a" PromptEvent.Validate] := by
  have h1 := c3_prompt_callback_events
    (InputHandler.init.prompt "find:" "" "" 0 0 regNone) "find:" "" 0 0 regNone
    'a' false rfl
  have h2 := c3_prompt_callback_events
    ((InputHandler.init.prompt "find:" "" "" 0 0 regNone).handle_key
      (Key.char 'a') false) "find:" ("".push 'a') 0 0 regNone 'a' false h1.1.1
  have ha : ("".push 'a') = "a" := by decide
  refine ⟨?_, ?_, ?_⟩
  · rw [h1.1.2, ha]
    rfl
  · exact h2.2.1
  · rw [h2.2.2, h1.1.2, ha]
    rfl

/-- C10: `handle_key` invoked with the `synthesized` argument omitted
processes the key with the parameter default `synthesized = true`, so
observers treat such a key as programmatically delivered: the buffer-edit
effect an Insert-mode key emits is tagged synthesized. -/
theorem c10_handle_key_default_synthesized (s : InputHandler) (k : Key)
    (f : InsertMode) (c : Nat) (rest : List InputMode)
    (heq : s.m_mode_stack = InputMode.insert f c :: rest)
    (hk : k ≠ Key.escape) :
    s.handle_key_defaulted k = s.handle_key k true ∧
    (s.handle_key_defaulted k).events =
      s.events ++ [Event.insertedKey k true (decide (s.hooks_disabled ≠ 0))] := by
  refine ⟨rfl, ?_⟩
  by_cases hc : s.m_recording_reg ≠ regNone ∧
      s.m_recording_level = (s.m_handle_key_level : Int)
  · by_cases hsup : s.m_last_insert.recording = 0 <;>
      simp [InputHandler.handle_key_defaulted,
        InputHandler.handle_key_synthesized_default, InputHandler.handle_key,
        InputHandler.handle_key_begin, InputHandler.record_key,
        InputHandler.handle_key_finish, InputHandler.dispatch_to_mode, heq, hc,
        hk, hsup]
  · by_cases hsup : s.m_last_insert.recording = 0 <;>
      simp [InputHandler.handle_key_defaulted,
        InputHandler.handle_key_synthesized_default, InputHandler.handle_key,
        InputHandler.handle_key_begin, InputHandler.record_key,
        InputHandler.handle_key_finish, InputHandler.dispatch_to_mode, heq, hc,
        hk, hsup]

/-- Witness for C10: on a fresh Insert session, a key delivered without
the synthesized argument is observed as synthesized. -/
theorem c10_witness :
    (InputHandler.init.insert InsertMode.Insert 1).handle_key_defaulted
        (Key.char 'x') =
      (InputHandler.init.insert InsertMode.Insert 1).handle_key (Key.char 'x')
        true ∧
    ((InputHandler.init.insert InsertMode.Insert 1).handle_key_defaulted
        (Key.char 'x')).events =
      (InputHandler.init.insert InsertMode.Insert 1).events ++
        [Event.insertedKey (Key.char 'x') true
          (decide ((InputHandler.init.insert InsertMode.Insert 1).hooks_disabled ≠ 0))] :=
  c10_handle_key_default_synthesized
    (InputHandler.init.insert InsertMode.Insert 1) (Key.char 'x')
    InsertMode.Insert 1 [InputMode.normal] rfl (by decide)

/-- The macro-recorder-related fields of the handler, bundled: recorded
keys, active register, recording depth, re-entrancy depth, register
storage. -/
def recState (s : InputHandler) :
    List Key × Char × Int × Nat × List (Char × List Key) :=
  (s.m_recorded_keys, s.m_recording_reg, s.m_recording_level,
   s.m_handle_key_level, s.registers)

/-- Mode logic never touches the macro recorder's state nor the
re-entrancy depth: the recorder observes keys as they flow through,
independent of semantic consumption (spec section 2). -/
theorem recState_dispatch (s : InputHandler) (k : Key) (b : Bool) :
    recState (s.dispatch_to_mode k b) = recState s := by
  unfold InputHandler.dispatch_to_mode
  split
  · split
    · rfl
    · split
      · rfl
      · rfl
  · match k with
    | Key.char c => rfl
    | Key.enter => rfl
    | Key.escape => rfl
    | Key.other n => rfl
  · rfl
  · rfl

/-- When the macro recorder should not capture the key (inactive register
or depth mismatch), `handle_key` leaves the recorder state unchanged. -/
theorem recState_handle_key_no_record (s : InputHandler) (k : Key) (b : Bool)
    (h : ¬(s.m_recording_reg ≠ regNone ∧
      s.m_recording_level = (s.m_handle_key_level : Int))) :
    recState (s.handle_key k b) = recState s := by
  unfold InputHandler.handle_key InputHandler.handle_key_finish
    InputHandler.handle_key_begin InputHandler.record_key
  rw [if_neg h]
  have hd := recState_dispatch
    { s with m_handle_key_level := s.m_handle_key_level + 1 } k b
  unfold recState at hd ⊢
  simp only [Prod.mk.injEq] at hd ⊢
  exact ⟨hd.1, hd.2.1, hd.2.2.1, by omega, hd.2.2.2.2⟩

/-- Operations that are pure key dispatches (a key plus the key dispatches
nested inside its frame): the shape of macro/insert replay traffic. -/
inductive KeysOnly : Op → Prop where
  | handleKey (k : Key) (b : Bool) (nested : List Op)
      (h : ∀ op ∈ nested, KeysOnly op) : KeysOnly (Op.handleKey k b nested)

/-- Running a list of operations each of which preserves the recorder
state (under the depth-mismatch condition) preserves the recorder state. -/
theorem recState_applyOps (l : List Op)
    (hl : ∀ op ∈ l, ∀ s : InputHandler,
      s.m_recording_level < (s.m_handle_key_level : Int) →
      recState (applyOp s op) = recState s) :
    ∀ s : InputHandler, s.m_recording_level < (s.m_handle_key_level : Int) →
      recState (applyOps s l) = recState s := by
  induction l with
  | nil => intro s _; rfl
  | cons op rest ih =>
    intro s h
    have h1 := hl op (by simp) s h
    have h2 : (applyOp s op).m_recording_level <
        ((applyOp s op).m_handle_key_level : Int) := by
      unfold recState at h1
      simp only [Prod.mk.injEq] at h1
      rw [h1.2.2.1, h1.2.2.2.1]
      exact h
    have h3 := ih (fun op hm => hl op (by simp [hm])) (applyOp s op) h2
    calc recState (applyOps (applyOp s op) rest)
        = recState (applyOp s op) := h3
      _ = recState s := h1

/-- C2's exclusion mechanism: keys dispatched at a re-entrancy depth
strictly below the current one (nested replay) never touch the recorder
state — "the depth counter is the sole mechanism distinguishing key to
remember from key produced by my own replay" (spec section 5). -/
theorem recState_keysOnly (o : Op) (ho : KeysOnly o) :
    ∀ s : InputHandler, s.m_recording_level < (s.m_handle_key_level : Int) →
      recState (applyOp s o) = recState s := by
  induction ho with
  | handleKey k b nested hmem ih =>
    intro s hlt
    show recState (InputHandler.handle_key_finish
      (applyOps
        (InputHandler.dispatch_to_mode (s.handle_key_begin k) k b) nested)) = _
    have hrec : s.record_key k = s := by
      unfold InputHandler.record_key
      rw [if_neg]
      intro hcontra
      omega
    have hbeg : recState (s.handle_key_begin k) =
        (s.m_recorded_keys, s.m_recording_reg, s.m_recording_level,
         s.m_handle_key_level + 1, s.registers) := by
      unfold InputHandler.handle_key_begin
      rw [hrec]
      rfl
    have hd := recState_dispatch (s.handle_key_begin k) k b
    rw [hbeg] at hd
    have hd2 : (InputHandler.dispatch_to_mode (s.handle_key_begin k) k
        b).m_recording_level <
        ((InputHandler.dispatch_to_mode (s.handle_key_begin k) k
          b).m_handle_key_level : Int) := by
      unfold recState at hd
      simp only [Prod.mk.injEq] at hd
      rw [hd.2.2.1, hd.2.2.2.1]
      omega
    have hops := recState_applyOps nested ih _ hd2
    rw [hd] at hops
    unfold InputHandler.handle_key_finish
    unfold recState at hops ⊢
    simp only [Prod.mk.injEq] at hops ⊢
    exact ⟨hops.1, hops.2.1, hops.2.2.1, by omega, hops.2.2.2.2⟩

/-- A key dispatched while the recorder is active and the re-entrancy
depth equals the recording-start depth is appended to the recorded
sequence, and the dispatch (including any nested key-only traffic at
deeper depth) changes nothing else of the recorder state. -/
theorem handle_key_records_at_start_depth (s : InputHandler) (k : Key)
    (b : Bool) (l : List Op) (hreg : s.m_recording_reg ≠ regNone)
    (hlvl : s.m_recording_level = (s.m_handle_key_level : Int))
    (hl : ∀ op ∈ l, KeysOnly op) :
    recState (applyOp s (Op.handleKey k b l)) =
      (s.m_recorded_keys ++ [k], s.m_recording_reg, s.m_recording_level,
       s.m_handle_key_level, s.registers) := by
  show recState (InputHandler.handle_key_finish
    (applyOps (InputHandler.dispatch_to_mode (s.handle_key_begin k) k b) l)) = _
  have hbeg : recState (s.handle_key_begin k) =
      (s.m_recorded_keys ++ [k], s.m_recording_reg, s.m_recording_level,
       s.m_handle_key_level + 1, s.registers) := by
    unfold InputHandler.handle_key_begin InputHandler.record_key
    rw [if_pos ⟨hreg, hlvl⟩]
    rfl
  have hd := recState_dispatch (s.handle_key_begin k) k b
  rw [hbeg] at hd
  have hd2 : (InputHandler.dispatch_to_mode (s.handle_key_begin k) k
      b).m_recording_level <
      ((InputHandler.dispatch_to_mode (s.handle_key_begin k) k
        b).m_handle_key_level : Int) := by
    unfold recState at hd
    simp only [Prod.mk.injEq] at hd
    rw [hd.2.2.1, hd.2.2.2.1]
    omega
  have hops := recState_applyOps l
    (fun op hm => recState_keysOnly op (hl op hm)) _ hd2
  rw [hd] at hops
  unfold InputHandler.handle_key_finish
  unfold recState at hops ⊢
  simp only [Prod.mk.injEq] at hops ⊢
  exact ⟨hops.1, hops.2.1, hops.2.2.1, by omega, hops.2.2.2.2⟩

theorem recState_eq_iff {s : InputHandler} {a : List Key} {b : Char} {c : Int}
    {d : Nat} {e : List (Char × List Key)} :
    recState s = (a, b, c, d, e) ↔
      (s.m_recorded_keys = a ∧ s.m_recording_reg = b ∧
       s.m_recording_level = c ∧ s.m_handle_key_level = d ∧ s.registers = e) := by
  unfold recState
  simp only [Prod.mk.injEq]

/-- Single-dispatch recording decision: while recording is active, a key
is appended to the recorded sequence iff the re-entrancy depth equals the
depth at which recording started. -/
theorem handle_key_record_iff (s : InputHandler) (k : Key) (b : Bool)
    (h : s.is_recording = true) :
    (s.handle_key k b).m_recorded_keys =
      if s.m_recording_level = (s.m_handle_key_level : Int)
      then s.m_recorded_keys ++ [k] else s.m_recorded_keys := by
  have hreg : s.m_recording_reg ≠ regNone := by
    simpa [InputHandler.is_recording] using h
  by_cases hl : s.m_recording_level = (s.m_handle_key_level : Int)
  · rw [if_pos hl]
    have hh := handle_key_records_at_start_depth s k b [] hreg hl (by simp)
    rw [applyOp_handleKey_nil] at hh
    exact (recState_eq_iff.mp hh).1
  · rw [if_neg hl]
    have hh := recState_handle_key_no_record s k b (fun hc => hl hc.2)
    exact (recState_eq_iff.mp hh).1

/-- The recording scenario of spec section 8: start recording into a
register, feed three keys at the recording-start depth — each possibly
dispatching arbitrary further key-only operations at deeper re-entrancy
levels — and stop; the register holds exactly the three fed keys. -/
theorem recording_scenario (s0 : InputHandler) (r : Char) (K1 K2 K3 : Key)
    (b1 b2 b3 : Bool) (n1 n2 n3 : List Op)
    (h0 : s0.is_recording = false) (hr : r ≠ regNone)
    (hn1 : ∀ op ∈ n1, KeysOnly op) (hn2 : ∀ op ∈ n2, KeysOnly op)
    (hn3 : ∀ op ∈ n3, KeysOnly op) :
    ((applyOps (s0.start_recording r).1
        [Op.handleKey K1 b1 n1, Op.handleKey K2 b2 n2,
         Op.handleKey K3 b3 n3]).stop_recording).get_register r =
      some [K1, K2, K3] := by
  have h0' : s0.m_recording_reg = regNone := by
    simpa [InputHandler.is_recording] using h0
  have hs1 : (s0.start_recording r).1 =
      { s0 with m_recording_reg := r, m_recorded_keys := [],
                m_recording_level := (s0.m_handle_key_level : Int) } := by
    unfold InputHandler.start_recording
    rw [if_neg (by simp [h0'])]
  set s1 := (s0.start_recording r).1 with hs1def
  have e1 : recState s1 = ([], r, (s0.m_handle_key_level : Int),
      s0.m_handle_key_level, s0.registers) := by
    rw [hs1]
    rfl
  obtain ⟨e1a, e1b, e1c, e1d, e1e⟩ := recState_eq_iff.mp e1
  have h1 := handle_key_records_at_start_depth s1 K1 b1 n1
    (by rw [e1b]; exact hr) (by rw [e1c, e1d]) hn1
  rw [e1a, e1b, e1c, e1d, e1e] at h1
  set s2 := applyOp s1 (Op.handleKey K1 b1 n1) with hs2def
  obtain ⟨e2a, e2b, e2c, e2d, e2e⟩ := recState_eq_iff.mp h1
  have h2 := handle_key_records_at_start_depth s2 K2 b2 n2
    (by rw [e2b]; exact hr) (by rw [e2c, e2d]) hn2
  rw [e2a, e2b, e2c, e2d, e2e] at h2
  set s3 := applyOp s2 (Op.handleKey K2 b2 n2) with hs3def
  obtain ⟨e3a, e3b, e3c, e3d, e3e⟩ := recState_eq_iff.mp h2
  have h3 := handle_key_records_at_start_depth s3 K3 b3 n3
    (by rw [e3b]; exact hr) (by rw [e3c, e3d]) hn3
  rw [e3a, e3b, e3c, e3d, e3e] at h3
  set s4 := applyOp s3 (Op.handleKey K3 b3 n3) with hs4def
  obtain ⟨e4a, e4b, e4c, e4d, e4e⟩ := recState_eq_iff.mp h3
  have hchain : applyOps s1
      [Op.handleKey K1 b1 n1, Op.handleKey K2 b2 n2, Op.handleKey K3 b3 n3] =
      s4 := rfl
  rw [hchain]
  unfold InputHandler.stop_recording
  rw [if_neg (by rw [e4b]; exact hr)]
  unfold InputHandler.get_register
  rw [e4b, e4a]
  simp [List.find?]

/-- C2: while recording is active a key handled by handle_key is appended
to the recorded sequence iff the current re-entrancy depth equals the
depth at which recording started; hence after start_recording(q), feeding
K1, K2, K3 at the recording-start depth and stop_recording(), register q
holds exactly [K1, K2, K3], regardless of any synthetic key-only traffic
dispatched at deeper re-entrancy levels in between. -/
theorem c2_recording_depth_discipline :
    (∀ (s : InputHandler) (k : Key) (b : Bool), s.is_recording = true →
      (s.handle_key k b).m_recorded_keys =
        if s.m_recording_level = (s.m_handle_key_level : Int)
        then s.m_recorded_keys ++ [k] else s.m_recorded_keys) ∧
    (∀ (s0 : InputHandler) (r : Char) (K1 K2 K3 : Key) (b1 b2 b3 : Bool)
      (n1 n2 n3 : List Op), s0.is_recording = false → r ≠ regNone →
      (∀ op ∈ n1, KeysOnly op) → (∀ op ∈ n2, KeysOnly op) →
      (∀ op ∈ n3, KeysOnly op) →
      ((applyOps (s0.start_recording r).1
          [Op.handleKey K1 b1 n1, Op.handleKey K2 b2 n2,
           Op.handleKey K3 b3 n3]).stop_recording).get_register r =
        some [K1, K2, K3]) :=
  ⟨handle_key_record_iff, recording_scenario⟩

/-- Witness for C2: a concrete recording session on the fresh handler;
the depth-matched key is captured, and the full scenario stores exactly
the three fed keys in register q. -/
theorem c2_witness :
    (({ InputHandler.init with m_recording_reg := 'q', m_recording_level := 0 }
        : InputHandler).handle_key (Key.char 'a') false).m_recorded_keys =
      (if (0 : Int) = ((0 : Nat) : Int) then [Key.char 'a'] else []) ∧
    ((applyOps (InputHandler.init.start_recording 'q').1
        [Op.handleKey (Key.char 'a') false [], Op.handleKey (Key.char 'b') false [],
         Op.handleKey (Key.char 'c') false []]).stop_recording).get_register 'q' =
      some [Key.char 'a', Key.char 'b', Key.char 'c'] :=
  ⟨c2_recording_depth_discipline.1
      { InputHandler.init with m_recording_reg := 'q', m_recording_level := 0 }
      (Key.char 'a') false (by decide),
   c2_recording_depth_discipline.2 InputHandler.init 'q' (Key.char 'a')
      (Key.char 'b') (Key.char 'c') false false false [] [] [] (by decide)
      (by decide) (by simp) (by simp) (by simp)⟩

/-- Replaying keys into a live Insert session with the insertion record
suppressed and the macro recorder inactive: the only effect is the
buffer-edit trace — each replayed key observed as synthesized, with the
hook-disable status in force — while the mode stack, the insertion record,
the recorder state and the depth counter are untouched. -/
theorem replay_keys_in_insert (keys : List Key) :
    ∀ (s : InputHandler) (f : InsertMode) (c : Nat) (rest : List InputMode),
      (∀ k ∈ keys, k ≠ Key.escape) →
      s.m_mode_stack = InputMode.insert f c :: rest →
      s.m_last_insert.recording ≠ 0 →
      s.m_recording_reg = regNone →
      s.replay_keys keys =
        { s with events := s.events ++
            keys.map (fun k => Event.insertedKey k true
              (decide (s.hooks_disabled ≠ 0))) } := by
  induction keys with
  | nil =>
    intro s f c rest _ _ _ _
    simp [InputHandler.replay_keys]
  | cons k ks ih =>
    intro s f c rest hk heq hsup hreg
    have hk1 : k ≠ Key.escape := hk k (by simp)
    have hs1 : s.handle_key k true =
        { s with events := s.events ++
            [Event.insertedKey k true (decide (s.hooks_disabled ≠ 0))] } := by
      unfold InputHandler.handle_key InputHandler.handle_key_begin
        InputHandler.record_key InputHandler.handle_key_finish
        InputHandler.dispatch_to_mode
      rw [if_neg (by simp [hreg])]
      simp [heq, hk1, hsup]
    have hstep : s.replay_keys (k :: ks) = (s.handle_key k true).replay_keys ks :=
      rfl
    rw [hstep, hs1]
    rw [ih { s with events := s.events ++
          [Event.insertedKey k true (decide (s.hooks_disabled ≠ 0))] }
        f c rest (fun k hm => hk k (by simp [hm])) heq hsup hreg]
    simp

/-- C5: for every frozen last-insert record (whose keys, by construction
of freezing, do not contain the session-ending Escape), repeat_last_insert
re-enters Insert with the frozen flavor and count and replays the frozen
keys as synthesized with recording suppressed — afterwards the stored
last-insert record equals its value before the call — with hooks disabled
iff the original session had them disabled (the replayed buffer edits are
observed with exactly that hook status), and the handler ends back in
Normal mode with its depth counter and hook toggle restored. -/
theorem c5_repeat_last_insert_frame (rec : Insertion)
    (hesc : ∀ k ∈ rec.keys, k ≠ Key.escape) :
    (({ InputHandler.init with m_last_insert := rec }
        : InputHandler).repeat_last_insert).m_last_insert = rec ∧
    (({ InputHandler.init with m_last_insert := rec }
        : InputHandler).repeat_last_insert).m_mode_stack = [InputMode.normal] ∧
    (({ InputHandler.init with m_last_insert := rec }
        : InputHandler).repeat_last_insert).hooks_disabled = 0 ∧
    (({ InputHandler.init with m_last_insert := rec }
        : InputHandler).repeat_last_insert).m_handle_key_level = 0 ∧
    (({ InputHandler.init with m_last_insert := rec }
        : InputHandler).repeat_last_insert).events =
      rec.keys.map (fun k => Event.insertedKey k true rec.disable_hooks) := by
  have h1 :
      (({ m_mode_stack := [InputMode.normal], m_last_insert := rec,
          m_handle_key_level := 0, m_recording_reg := regNone,
          m_recorded_keys := [], m_recording_level := -1, hooks_disabled := 0,
          registers := [], events := [] } : InputHandler).replay_scope_enter) =
      { m_mode_stack := [InputMode.normal],
        m_last_insert := { recording := rec.recording + 1, mode := rec.mode,
                           keys := rec.keys, disable_hooks := rec.disable_hooks,
                           count := rec.count },
        m_handle_key_level := 0, m_recording_reg := regNone,
        m_recorded_keys := [], m_recording_level := -1,
        hooks_disabled := if rec.disable_hooks then 1 else 0,
        registers := [], events := [] } := by
    unfold InputHandler.replay_scope_enter
    cases hdh : rec.disable_hooks <;> simp_all [InputHandler.init]
  have h2 :
      (({ m_mode_stack := [InputMode.normal],
          m_last_insert := { recording := rec.recording + 1, mode := rec.mode,
                             keys := rec.keys,
                             disable_hooks := rec.disable_hooks,
                             count := rec.count },
          m_handle_key_level := 0, m_recording_reg := regNone,
          m_recorded_keys := [], m_recording_level := -1,
          hooks_disabled := if rec.disable_hooks then 1 else 0,
          registers := [], events := [] } : InputHandler).insert rec.mode
        rec.count) =
      { m_mode_stack := [InputMode.insert rec.mode rec.count, InputMode.normal],
        m_last_insert := { recording := rec.recording + 1, mode := rec.mode,
                           keys := rec.keys, disable_hooks := rec.disable_hooks,
                           count := rec.count },
        m_handle_key_level := 0, m_recording_reg := regNone,
        m_recorded_keys := [], m_recording_level := -1,
        hooks_disabled := if rec.disable_hooks then 1 else 0,
        registers := [], events := [] } := by
    unfold InputHandler.insert InputHandler.push_mode
    simp
  have h3 :
      (({ m_mode_stack := [InputMode.insert rec.mode rec.count,
            InputMode.normal],
          m_last_insert := { recording := rec.recording + 1, mode := rec.mode,
                             keys := rec.keys,
                             disable_hooks := rec.disable_hooks,
                             count := rec.count },
          m_handle_key_level := 0, m_recording_reg := regNone,
          m_recorded_keys := [], m_recording_level := -1,
          hooks_disabled := if rec.disable_hooks then 1 else 0,
          registers := [], events := [] } : InputHandler).replay_keys
        rec.keys) =
      { m_mode_stack := [InputMode.insert rec.mode rec.count, InputMode.normal],
        m_last_insert := { recording := rec.recording + 1, mode := rec.mode,
                           keys := rec.keys, disable_hooks := rec.disable_hooks,
                           count := rec.count },
        m_handle_key_level := 0, m_recording_reg := regNone,
        m_recorded_keys := [], m_recording_level := -1,
        hooks_disabled := if rec.disable_hooks then 1 else 0,
        registers := [],
        events := rec.keys.map (fun k =>
          Event.insertedKey k true rec.disable_hooks) } := by
    rw [replay_keys_in_insert rec.keys _ rec.mode rec.count [InputMode.normal]
      hesc rfl (by simp) rfl]
    cases hdh : rec.disable_hooks <;> simp
  have h4 :
      (({ m_mode_stack := [InputMode.insert rec.mode rec.count,
            InputMode.normal],
          m_last_insert := { recording := rec.recording + 1, mode := rec.mode,
                             keys := rec.keys,
                             disable_hooks := rec.disable_hooks,
                             count := rec.count },
          m_handle_key_level := 0, m_recording_reg := regNone,
          m_recorded_keys := [], m_recording_level := -1,
          hooks_disabled := if rec.disable_hooks then 1 else 0,
          registers := [],
          events := rec.keys.map (fun k =>
            Event.insertedKey k true rec.disable_hooks) }
        : InputHandler).handle_key Key.escape true) =
      { m_mode_stack := [InputMode.normal],
        m_last_insert := { recording := rec.recording + 1, mode := rec.mode,
                           keys := rec.keys, disable_hooks := rec.disable_hooks,
                           count := rec.count },
        m_handle_key_level := 0, m_recording_reg := regNone,
        m_recorded_keys := [], m_recording_level := -1,
        hooks_disabled := if rec.disable_hooks then 1 else 0,
        registers := [],
        events := rec.keys.map (fun k =>
          Event.insertedKey k true rec.disable_hooks) } := by
    unfold InputHandler.handle_key InputHandler.handle_key_begin
      InputHandler.record_key InputHandler.handle_key_finish
      InputHandler.dispatch_to_mode
    simp
  have h5 :
      InputHandler.replay_scope_exit rec.disable_hooks
        ({ m_mode_stack := [InputMode.normal],
           m_last_insert := { recording := rec.recording + 1, mode := rec.mode,
                              keys := rec.keys,
                              disable_hooks := rec.disable_hooks,
                              count := rec.count },
           m_handle_key_level := 0, m_recording_reg := regNone,
           m_recorded_keys := [], m_recording_level := -1,
           hooks_disabled := if rec.disable_hooks then 1 else 0,
           registers := [],
           events := rec.keys.map (fun k =>
             Event.insertedKey k true rec.disable_hooks) } : InputHandler) =
      { m_mode_stack := [InputMode.normal], m_last_insert := rec,
        m_handle_key_level := 0, m_recording_reg := regNone,
        m_recorded_keys := [], m_recording_level := -1, hooks_disabled := 0,
        registers := [],
        events := rec.keys.map (fun k =>
          Event.insertedKey k true rec.disable_hooks) } := by
    cases hdh : rec.disable_hooks <;>
      simp [InputHandler.replay_scope_exit, hdh] <;>
      rw [← hdh]
  have hall : ({ InputHandler.init with m_last_insert := rec }
      : InputHandler).repeat_last_insert =
      { m_mode_stack := [InputMode.normal], m_last_insert := rec,
        m_handle_key_level := 0, m_recording_reg := regNone,
        m_recorded_keys := [], m_recording_level := -1, hooks_disabled := 0,
        registers := [],
        events := rec.keys.map (fun k =>
          Event.insertedKey k true rec.disable_hooks) } := by
    unfold InputHandler.repeat_last_insert
    dsimp only [InputHandler.init]
    rw [h1, h2, h3, h4, h5]
  rw [hall]
  exact ⟨rfl, rfl, rfl, rfl, rfl⟩

/-- Witness for C5: repeating the frozen record {Insert, 1, [x]} leaves
the record intact, emits the single synthesized replay edit and returns
to Normal. -/
theorem c5_witness :
    (({ InputHandler.init with m_last_insert :=
        { recording := 0, mode := InsertMode.Insert, keys := [Key.char 'x'],
          disable_hooks := false, count := 1 } }
        : InputHandler).repeat_last_insert).m_last_insert =
      { recording := 0, mode := InsertMode.Insert, keys := [Key.char 'x'],
        disable_hooks := false, count := 1 } ∧
    (({ InputHandler.init with m_last_insert :=
        { recording := 0, mode := InsertMode.Insert, keys := [Key.char 'x'],
          disable_hooks := false, count := 1 } }
        : InputHandler).repeat_last_insert).m_mode_stack = [InputMode.normal] ∧
    (({ InputHandler.init with m_last_insert :=
        { recording := 0, mode := InsertMode.Insert, keys := [Key.char 'x'],
          disable_hooks := false, count := 1 } }
        : InputHandler).repeat_last_insert).hooks_disabled = 0 ∧
    (({ InputHandler.init with m_last_insert :=
        { recording := 0, mode := InsertMode.Insert, keys := [Key.char 'x'],
          disable_hooks := false, count := 1 } }
        : InputHandler).repeat_last_insert).m_handle_key_level = 0 ∧
    (({ InputHandler.init with m_last_insert :=
        { recording := 0, mode := InsertMode.Insert, keys := [Key.char 'x'],
          disable_hooks := false, count := 1 } }
        : InputHandler).repeat_last_insert).events =
      [Key.char 'x'].map (fun k => Event.insertedKey k true false) :=
  c5_repeat_last_insert_frame
    { recording := 0, mode := InsertMode.Insert, keys := [Key.char 'x'],
      disable_hooks := false, count := 1 } (by decide)

end Kakoune
